import Mathlib

/-!
Shallow embedding of the binary-protocol core of the home-energy repository
(files `deye_modbus.py` and `tibber_raw.py`) and proofs about the claims of
its specification.

Bytes are modelled as `Nat` (values `< 256` where it matters), byte strings
as `List Nat`, Python `str` values as `List Char`.  Fallible Python code
(code that can raise) is modelled with `Option`/`Except`.
-/

namespace HomeEnergy

/-! ### Generic helpers: hex strings, byte conversions -/

/-- Value of one hexadecimal digit character, as accepted by Python's
`bytes.fromhex` / `int(_, 16)` (both lower and upper case). -/
def hexVal? (c : Char) : Option Nat :=
  if '0' ≤ c ∧ c ≤ '9' then some (c.toNat - 48)
  else if 'a' ≤ c ∧ c ≤ 'f' then some (c.toNat - 87)
  else if 'A' ≤ c ∧ c ≤ 'F' then some (c.toNat - 70)
  else none

/-- Lower-case hexadecimal digit character for a value `< 16`, as produced by
Python's `"{:04x}".format`. -/
def hexDigitChar (n : Nat) : Char :=
  if n < 10 then Char.ofNat (48 + n) else Char.ofNat (87 + n)

/-- Hexadecimal digits of `n`, least significant first, empty for `0`.
Fuel-based so that it reduces by evaluation; `toHexRev` instantiates the fuel. -/
def toHexRevAux : Nat → Nat → List Char
  | 0, _ => []
  | _ + 1, 0 => []
  | fuel + 1, n + 1 => hexDigitChar ((n + 1) % 16) :: toHexRevAux fuel ((n + 1) / 16)

/-- Hexadecimal digits of `n`, least significant first (empty for `0`). -/
def toHexRev (n : Nat) : List Char := toHexRevAux n n

/-- Embedding of Python `"{:0<width>x}".format n`: minimal lower-case hex
digits of `n` (one digit for 0), left-padded with `'0'` to `width`. -/
def pyFormatHex (width n : Nat) : List Char :=
  let ds := if n = 0 then ['0'] else (toHexRev n).reverse
  List.replicate (width - ds.length) '0' ++ ds

/-- Embedding of Python `bytearray.fromhex` on a whitespace-free string:
consecutive pairs of hex digits become bytes; an odd-length string or a
non-hex character raises (`none`). -/
def hexPairsToBytes : List Char → Option (List Nat)
  | [] => some []
  | [_] => none
  | c1 :: c2 :: rest =>
    match hexVal? c1, hexVal? c2, hexPairsToBytes rest with
    | some h, some lo, some bs => some ((16 * h + lo) :: bs)
    | _, _, _ => none

/-- Embedding of Python `int.from_bytes(bs, "big")`. -/
def fromBytesBE (bs : List Nat) : Nat :=
  bs.foldl (fun acc b => 256 * acc + b) 0

/-- Embedding of Python `int.from_bytes(bs, "little")`. -/
def fromBytesLE (bs : List Nat) : Nat :=
  bs.foldr (fun b acc => b + 256 * acc) 0

/-! ### CRC-16/MODBUS (embedding of `libscrc.modbus`)

Standard CRC-16/MODBUS: initial value `0xFFFF`, reflected polynomial
`0xA001`; every input byte is xor-ed into the low byte of the running crc,
followed by eight shift/xor steps. -/

/-- One bit step of CRC-16/MODBUS. -/
def crcBitStep (c : Nat) : Nat :=
  if c % 2 = 1 then (c / 2) ^^^ 0xA001 else c / 2

/-- Iterated bit steps. -/
def crcBitN : Nat → Nat → Nat
  | 0, c => c
  | k + 1, c => crcBitN k (crcBitStep c)

/-- CRC state update for one input byte. -/
def crcByteStep (c b : Nat) : Nat := crcBitN 8 (c ^^^ b)

/-- Embedding of `libscrc.modbus`: CRC-16/MODBUS of a byte string. -/
def crc16_modbus (bs : List Nat) : Nat :=
  bs.foldl crcByteStep 0xFFFF

/-! ### Frame codec (`deye_modbus.py`) -/

/-- Embedding of `build_modbus_read_holding_registers_request_frame`
(deye_modbus.py lines 19-21):
`bytearray.fromhex("0103{:04x}{:04x}".format(first_reg, reg_count))` with
`reg_count = last_reg - first_reg + 1`.  `none` models the `ValueError`
raised by `fromhex` on an odd-length hex string (which happens when a field
does not fit in four hex digits). -/
def build_modbus_read_holding_registers_request_frame
    (first_reg last_reg : Nat) : Option (List Nat) :=
  hexPairsToBytes
    (['0', '1', '0', '3'] ++ pyFormatHex 4 first_reg
      ++ pyFormatHex 4 (last_reg - first_reg + 1))

/-- Error outcomes of the response parser: `tooShort` models
`ValueError("Modbus frame is too short")`, `badCrc` models
`ValueError("Modbus frame crc is not valid")`. -/
inductive ParseErr where
  | tooShort
  | badCrc
  deriving DecidableEq, Repr

/-- Register-collecting `while` loop of the response parser (deye_modbus.py
lines 49-55), with loop counter `a` and `k` iterations left:
`registers[a + first_reg] = frame[3 + 2*a : 5 + 2*a]`. -/
def regLoop (frame : List Nat) (first_reg : Nat) : Nat → Nat → List (Nat × List Nat)
  | _, 0 => []
  | a, k + 1 =>
    (first_reg + a, (frame.drop (3 + 2 * a)).take 2) :: regLoop frame first_reg (a + 1) k

/-- Embedding of `parse_modbus_read_holding_registers_response`
(deye_modbus.py lines 23-56): length check, then CRC check (stored crc read
little-endian from the two bytes after the data region), then the register
map is built as an association list in increasing address order, mirroring
the insertion order of the Python dict. -/
def parse_modbus_read_holding_registers_response
    (frame : List Nat) (first_reg last_reg : Nat) :
    Except ParseErr (List (Nat × List Nat)) :=
  let reg_count := last_reg - first_reg + 1
  let expected_frame_data_len := 2 + 1 + reg_count * 2
  if frame.length < expected_frame_data_len + 2 then
    .error .tooShort
  else
    let actual_crc := fromBytesLE ((frame.drop expected_frame_data_len).take 2)
    let expected_crc := crc16_modbus (frame.take expected_frame_data_len)
    if actual_crc ≠ expected_crc then
      .error .badCrc
    else
      .ok (regLoop frame first_reg 0 reg_count)

/-- Wire-request construction inside `read_holding_registers` (deye_modbus.py
lines 168-172): the request frame, followed by the CRC-16/MODBUS of the frame
rendered as `"{:04x}"` hex, converted back to bytes and byte-reversed
(`modbus_crc.reverse()`), i.e. appended little-endian. -/
def read_holding_registers_wire_request (first_reg last_reg : Nat) : Option (List Nat) :=
  match build_modbus_read_holding_registers_request_frame first_reg last_reg with
  | none => none
  | some fr =>
    match hexPairsToBytes (pyFormatHex 4 (crc16_modbus fr)) with
    | none => none
    | some crcBytes => some (fr ++ crcBytes.reverse)

/-! ### Register decoder (`deye_modbus.py` lines 199-215) -/

/-- Embedding of `read_unit16`: `int.from_bytes(response[address], "big") & 0xffff`.
`response[address]` raises `KeyError` when absent (`none`); the `& 0xffff`
mask on a non-negative int is reduction mod `2^16`. -/
def read_unit16 (response : List (Nat × List Nat)) (address : Nat) : Option Nat :=
  (response.lookup address).map (fun bs => fromBytesBE bs % 65536)

/-- Embedding of `read_unit32`: `int.from_bytes(response[address], "big") & 0xffffffff`.
Note the source reads the single entry at `address` only. -/
def read_unit32 (response : List (Nat × List Nat)) (address : Nat) : Option Nat :=
  (response.lookup address).map (fun bs => fromBytesBE bs % 4294967296)

/-- Embedding of `read_int16`: the `u16` value, minus `65536` when `> 32767`. -/
def read_int16 (response : List (Nat × List Nat)) (address : Nat) : Option Int :=
  (response.lookup address).map (fun bs =>
    let value := fromBytesBE bs % 65536
    if value > 32767 then (value : Int) - 65536 else (value : Int))

/-- Embedding of `read_int32`: the `read_unit32` value, minus `4294967296`
when `> 2147483647`. -/
def read_int32 (response : List (Nat × List Nat)) (address : Nat) : Option Int :=
  (read_unit32 response address).map (fun (value : Nat) =>
    if value > 2147483647 then (value : Int) - 4294967296 else (value : Int))

/-! ### AT transport session (`deye_modbus.py` class `DeyeAtConnector`) -/

/-- Boolean test that `pat` is an initial segment of `l` (Python
`bytes.startswith` / list slicing). -/
def beginsWith [BEq α] : List α → List α → Bool
  | [], _ => true
  | _ :: _, [] => false
  | p :: ps, b :: bs => p == b && beginsWith ps bs

/-- Boolean test that `needle` occurs contiguously inside `hay`: the
embedding of Python's `needle in hay` on strings. -/
def hasSubstr [BEq α] (needle : List α) : List α → Bool
  | [] => needle.isEmpty
  | c :: rest => beginsWith needle (c :: rest) || hasSubstr needle rest

/-- Bytes of the AT response marker `"+ok="`. -/
def okMarker : List Nat := [43, 111, 107, 61]

/-- Bytes of the AT response marker `"+ok=no data"`. -/
def noDataMarker : List Nat := [43, 111, 107, 61, 110, 111, 32, 100, 97, 116, 97]

/-- Bytes of the AT response marker `"+ERR="`. -/
def errMarker : List Nat := [43, 69, 82, 82, 61]

/-- Embedding of Python `bytes.decode("utf-8")` restricted to ASCII content:
bytes `< 128` decode to their characters, anything else is treated as a
decode failure.  (The device payloads decoded here are ASCII hex text; a
non-ASCII byte makes the Python call raise on these inputs as well.) -/
def decodeAscii (bs : List Nat) : Option (List Char) :=
  if bs.all (· < 128) then some (bs.map Char.ofNat) else none

/-- Embedding of `DeyeAtConnector.extract_modbus_respose` (deye_modbus.py
lines 149-154): remove every `0x10` byte, slice `[4:-4]`, decode as text,
strip a trailing `"0000"` when the text is longer than 4 characters and ends
with it, and convert the remaining hex text back to bytes.  `none` models an
exception (decode or `fromhex` failure). -/
def extract_modbus_respose (at_cmd_response : List Nat) : Option (List Nat) :=
  let cleaned := at_cmd_response.filter (fun b => b ≠ 16)
  let trimmed := (cleaned.drop 4).take (cleaned.length - 8)
  match decodeAscii trimmed with
  | none => none
  | some s =>
    let s2 :=
      if s.length > 4 ∧ s.drop (s.length - 4) = ['0', '0', '0', '0'] then
        s.take (s.length - 4)
      else s
    hexPairsToBytes s2

/-- Abstract environment for one `send_request` session: which of the
side-effecting operations succeed, and what the receive call returns.
`recvData = none` covers the timeout/at-most-5-attempts path of
`__receive_at_response` (which catches its own socket errors and returns
`None`). -/
structure AtEnv where
  socketOk : Bool
  authRaises : Bool
  sendRaises : Bool
  recvData : Option (List Nat)
  deauthRaises : Bool

/-- Body of the `try:` block of `DeyeAtConnector.send_request` (deye_modbus.py
lines 121-141).  `Except.error v` models an exception escaping the body with
`modbus_response` holding `v` at that point (the value the surrounding
`except`/`finally` then returns); `Except.ok (v, d)` is normal completion
with result `v`, where `d` records whether the deauthenticate command was
sent. -/
def sendRequestBody (env : AtEnv) : Except (Option (List Nat)) (Option (List Nat) × Bool) :=
  if env.authRaises then .error none
  else if env.sendRaises then .error none
  else
    match env.recvData with
    | none => .ok (none, false)
    | some r =>
      if r.isEmpty then .ok (none, false)
      else if beginsWith noDataMarker r then .ok (none, false)
      else if beginsWith errMarker r then .ok (none, false)
      else if beginsWith okMarker r then
        match extract_modbus_respose r with
        | none => .error none
        | some m => if env.deauthRaises then .error (some m) else .ok (some m, true)
      else
        if env.deauthRaises then .error none else .ok (none, true)

/-- Embedding of `DeyeAtConnector.send_request` (deye_modbus.py lines
114-147): socket-open failure returns `None`; otherwise the body runs under a
catch-all `except Exception` that logs and falls through to `return
modbus_response`.  The result also carries whether the deauthenticate command
was sent. -/
def send_request_full (env : AtEnv) : Option (List Nat) × Bool :=
  if env.socketOk = false then (none, false)
  else
    match sendRequestBody env with
    | .ok (v, d) => (v, d)
    | .error v => (v, false)

/-- Result of `send_request` as seen by the caller. -/
def send_request (env : AtEnv) : Option (List Nat) :=
  (send_request_full env).1

/-! ### OBIS stream decoder (`tibber_raw.py`) -/

/-- Embedding of the static `obis_mapping` dict (tibber_raw.py lines 18-32):
OBIS tag → (field name, scale).  The Python float scales are modelled as the
decimal rationals they denote. -/
def obis_mapping : List (List Char × (List Char × ℚ)) :=
  [ ("0100010800ff".data, ("energy_total_import".data, 1 / 10000)),
    ("0100020800ff".data, ("energy_total_export".data, 1 / 10000)),
    ("0100100700ff".data, ("power_total".data, 1)),
    ("0100240700ff".data, ("power_l1".data, 1)),
    ("0100380700ff".data, ("power_l2".data, 1)),
    ("01004c0700ff".data, ("power_l3".data, 1)),
    ("01001f0700ff".data, ("current_l1".data, 1 / 100)),
    ("0100330700ff".data, ("current_l2".data, 1 / 100)),
    ("0100470700ff".data, ("current_l3".data, 1 / 100)),
    ("0100200700ff".data, ("voltage_l1".data, 1 / 10)),
    ("0100340700ff".data, ("voltage_l2".data, 1 / 10)),
    ("0100480700ff".data, ("voltage_l3".data, 1 / 10)),
    ("01000e0700ff".data, ("frequency".data, 1 / 10)) ]

/-- Characters of the meter-identity OBIS tag `"0100600100ff"`. -/
def idTagChars : List Char := "0100600100ff".data

/-- Embedding of Python `round` to an integer: round half to even. -/
def pyRoundHalfEven (q : ℚ) : Int :=
  let f := ⌊q⌋
  let r := q - f
  if r < 1 / 2 then f
  else if 1 / 2 < r then f + 1
  else if 2 ∣ f then f else f + 1

/-- Embedding of Python `round(q, 3)`. -/
def round3 (q : ℚ) : ℚ := (pyRoundHalfEven (q * 1000) : ℚ) / 1000

/-- Embedding of Python `int(s)` on a plain decimal-digit string (the only
shape reaching the call sites modelled here); anything else raises (`none`). -/
def pyIntDec (s : List Char) : Option Nat :=
  if s ≠ [] ∧ s.all Char.isDigit then
    some (s.foldl (fun a c => 10 * a + (c.toNat - 48)) 0)
  else none

/-- Embedding of Python `int(s, 16)` on a plain hex-digit string; anything
else raises (`none`). -/
def pyIntHex (s : List Char) : Option Nat :=
  if s.isEmpty then none
  else
    s.foldl
      (fun acc c =>
        match acc, hexVal? c with
        | some a, some d => some (16 * a + d)
        | _, _ => none)
      (some 0)

/-- Embedding of the meter-identity parse (tibber_raw.py lines 171-176):
drop the two leading characters, then counter `[0:2]` as a decimal int,
manufacturer `[2:8]` hex-decoded to text, unknown segment `[8:11]` kept
verbatim, serial `[11:]` as a hex int; the meter string is the f-string
concatenation of the four parts. -/
def parse_meter_identity (v : List Char) : Option (List Char) :=
  let s := v.drop 2
  match pyIntDec (s.take 2),
      (hexPairsToBytes ((s.drop 2).take 6)).bind decodeAscii,
      pyIntHex (s.drop 11) with
  | some counter, some man, some number =>
    some (Nat.toDigits 10 counter ++ man ++ (s.drop 8).take 3 ++ Nat.toDigits 10 number)
  | _, _, _ => none

/-- Raw value of a decoded OBIS record: a number, or a text value (as the
identity record carries). -/
inductive ObisVal where
  | num (q : ℚ)
  | str (s : List Char)

/-- State threaded through the per-record loop of tibber_raw.py lines
164-181: the accumulated measurement set (`values`, newest first — cons plus
first-match lookup models dict overwrite) and the meter-identity string. -/
structure SmlState where
  values : List (List Char × ℚ)
  meter : List Char

/-- Embedding of one iteration of the per-record loop (tibber_raw.py lines
166-181).  The identity branch is guarded by Python `obis_number in
"0100600100ff"` — a substring test; the second branch by dict-key membership
in `obis_mapping`.  `none` models an exception (type error on a value of the
wrong shape, or a failing parse in the identity branch). -/
def processObisRecord (st : SmlState) (tag : List Char) (v : ObisVal) : Option SmlState :=
  if hasSubstr tag idTagChars then
    match v with
    | .str s => (parse_meter_identity s).map (fun m => ⟨st.values, m⟩)
    | .num _ => none
  else
    match obis_mapping.lookup tag with
    | some (name, scale) =>
      match v with
      | .num q => some ⟨(name, round3 (q * scale)) :: st.values, st.meter⟩
      | .str _ => none
    | none => some st

/-! ### Definitions taken from the claims (for comparison with the source) -/

/-- Claim C1's formula for the 32-bit decoder: combine the registers at
`addr` and `addr + 1` with the high word first, masked to 32 bits. -/
def claimed_read_unit32 (response : List (Nat × List Nat)) (address : Nat) : Option Nat :=
  match read_unit16 response address, read_unit16 response (address + 1) with
  | some hi, some lo => some ((hi * 65536 + lo) % 4294967296)
  | _, _ => none

/-- Claim C3's description of the wire request: function code `0x03`, then
`first_reg` big-endian 16-bit, then the register count big-endian 16-bit,
followed by the CRC-16/MODBUS of those bytes appended byte-reversed. -/
def claimed_wire_request (first_reg last_reg : Nat) : List Nat :=
  let body := [3, first_reg / 256, first_reg % 256,
    (last_reg - first_reg + 1) / 256, (last_reg - first_reg + 1) % 256]
  body ++ [crc16_modbus body % 256, crc16_modbus body / 256]

/-- Claim C6's description of the AT-response extraction: remove every
`0x10` byte, drop the first 4 and the last 4 of the remaining bytes,
interpret the rest as an ASCII hex string, remove a trailing literal
`"0000"` suffix when the string is longer than 4 characters and ends with
it, and hex-decode the result. -/
def claimed_extraction (resp : List Nat) : Option (List Nat) :=
  let remaining := resp.filter (fun b => ¬ b = 16)
  let core := ((remaining.drop 4).reverse.drop 4).reverse
  match decodeAscii core with
  | none => none
  | some s =>
    let s2 := if 4 < s.length ∧ ['0', '0', '0', '0'] <:+ s then s.take (s.length - 4) else s
    hexPairsToBytes s2

/-! ### Hex-format lemmas -/

theorem toHexRevAux_irrel : ∀ f1 f2 n : Nat, n ≤ f1 → n ≤ f2 →
    toHexRevAux f1 n = toHexRevAux f2 n := by
  intro f1
  induction f1 with
  | zero =>
    intro f2 n h1 _
    have : n = 0 := by omega
    subst this
    cases f2 <;> rfl
  | succ f ih =>
    intro f2 n h1 h2
    cases n with
    | zero => cases f2 <;> rfl
    | succ m =>
      cases f2 with
      | zero => omega
      | succ f2' =>
        have hd : (m + 1) / 16 < m + 1 := Nat.div_lt_self (by omega) (by omega)
        show hexDigitChar ((m + 1) % 16) :: toHexRevAux f ((m + 1) / 16)
            = hexDigitChar ((m + 1) % 16) :: toHexRevAux f2' ((m + 1) / 16)
        rw [ih f2' ((m + 1) / 16) (by omega) (by omega)]

theorem toHexRev_zero : toHexRev 0 = [] := rfl

theorem toHexRev_pos (n : Nat) (h : 0 < n) :
    toHexRev n = hexDigitChar (n % 16) :: toHexRev (n / 16) := by
  obtain ⟨m, rfl⟩ : ∃ m, n = m + 1 := ⟨n - 1, by omega⟩
  have hd : (m + 1) / 16 < m + 1 := Nat.div_lt_self (by omega) (by omega)
  show hexDigitChar ((m + 1) % 16) :: toHexRevAux m ((m + 1) / 16) = _
  rw [toHexRevAux_irrel m ((m + 1) / 16) ((m + 1) / 16) (by omega) le_rfl]
  rfl

theorem pyFormatHex4_eq (n : Nat) (h : n < 65536) :
    pyFormatHex 4 n = [hexDigitChar (n / 4096), hexDigitChar (n / 256 % 16),
      hexDigitChar (n / 16 % 16), hexDigitChar (n % 16)] := by
  have hchar0 : hexDigitChar 0 = '0' := by decide
  rcases Nat.lt_or_ge n 1 with h1 | h1
  · have : n = 0 := by omega
    subst this
    decide
  rcases Nat.lt_or_ge n 16 with h2 | h2
  · have e : toHexRev n = [hexDigitChar (n % 16)] := by
      rw [toHexRev_pos n (by omega), Nat.div_eq_of_lt h2, toHexRev_zero]
    have d1 : n / 16 = 0 := Nat.div_eq_of_lt h2
    have d2 : n / 256 = 0 := Nat.div_eq_of_lt (by omega)
    have d3 : n / 4096 = 0 := Nat.div_eq_of_lt (by omega)
    have hn0 : ¬ n = 0 := by omega
    simp [pyFormatHex, e, d1, d2, d3, hchar0, List.replicate, hn0]
  rcases Nat.lt_or_ge n 256 with h3 | h3
  · have hq1 : 0 < n / 16 := (Nat.le_div_iff_mul_le (by omega)).2 (by omega)
    have hq2 : n / 16 < 16 := (Nat.div_lt_iff_lt_mul (by omega)).2 (by omega)
    have e : toHexRev n = [hexDigitChar (n % 16), hexDigitChar (n / 16 % 16)] := by
      rw [toHexRev_pos n (by omega), toHexRev_pos (n / 16) hq1,
        Nat.div_eq_of_lt hq2, toHexRev_zero]
    have d2 : n / 256 = 0 := Nat.div_eq_of_lt h3
    have d3 : n / 4096 = 0 := Nat.div_eq_of_lt (by omega)
    have hn0 : ¬ n = 0 := by omega
    simp [pyFormatHex, e, d2, d3, hchar0, List.replicate, hn0]
  rcases Nat.lt_or_ge n 4096 with h4 | h4
  · have hq1 : 0 < n / 16 := (Nat.le_div_iff_mul_le (by omega)).2 (by omega)
    have hq2 : 0 < n / 256 := (Nat.le_div_iff_mul_le (by omega)).2 (by omega)
    have hq3 : n / 256 < 16 := (Nat.div_lt_iff_lt_mul (by omega)).2 (by omega)
    have dd1 : n / 16 / 16 = n / 256 := by
      rw [Nat.div_div_eq_div_mul]
    have e : toHexRev n
        = [hexDigitChar (n % 16), hexDigitChar (n / 16 % 16), hexDigitChar (n / 256 % 16)] := by
      rw [toHexRev_pos n (by omega), toHexRev_pos (n / 16) hq1, dd1,
        toHexRev_pos (n / 256) hq2, Nat.div_eq_of_lt hq3, toHexRev_zero]
    have d3 : n / 4096 = 0 := Nat.div_eq_of_lt (by omega)
    have hn0 : ¬ n = 0 := by omega
    simp [pyFormatHex, e, d3, hchar0, List.replicate, hn0]
  · have hq1 : 0 < n / 16 := (Nat.le_div_iff_mul_le (by omega)).2 (by omega)
    have hq2 : 0 < n / 256 := (Nat.le_div_iff_mul_le (by omega)).2 (by omega)
    have hq3 : 0 < n / 4096 := (Nat.le_div_iff_mul_le (by omega)).2 (by omega)
    have hq4 : n / 4096 < 16 := (Nat.div_lt_iff_lt_mul (by omega)).2 (by omega)
    have dd1 : n / 16 / 16 = n / 256 := by rw [Nat.div_div_eq_div_mul]
    have dd2 : n / 256 / 16 = n / 4096 := by rw [Nat.div_div_eq_div_mul]
    have e : toHexRev n = [hexDigitChar (n % 16), hexDigitChar (n / 16 % 16),
        hexDigitChar (n / 256 % 16), hexDigitChar (n / 4096 % 16)] := by
      rw [toHexRev_pos n (by omega), toHexRev_pos (n / 16) hq1, dd1,
        toHexRev_pos (n / 256) hq2, dd2, toHexRev_pos (n / 4096) hq3,
        Nat.div_eq_of_lt hq4, toHexRev_zero]
    rw [Nat.mod_eq_of_lt hq4] at e
    have hn0 : ¬ n = 0 := by omega
    simp [pyFormatHex, e, List.replicate, hn0]

theorem hexVal?_hexDigitChar : ∀ d : Nat, d < 16 → hexVal? (hexDigitChar d) = some d := by
  decide

theorem hexPairsToBytes_format4 (n : Nat) (h : n < 65536) :
    hexPairsToBytes (pyFormatHex 4 n) = some [n / 256, n % 256] := by
  have b1 : n / 4096 < 16 := (Nat.div_lt_iff_lt_mul (by omega)).2 (by omega)
  have e1 : hexVal? (hexDigitChar (n / 4096)) = some (n / 4096) :=
    hexVal?_hexDigitChar _ b1
  have e2 : hexVal? (hexDigitChar (n / 256 % 16)) = some (n / 256 % 16) :=
    hexVal?_hexDigitChar _ (Nat.mod_lt _ (by omega))
  have e3 : hexVal? (hexDigitChar (n / 16 % 16)) = some (n / 16 % 16) :=
    hexVal?_hexDigitChar _ (Nat.mod_lt _ (by omega))
  have e4 : hexVal? (hexDigitChar (n % 16)) = some (n % 16) :=
    hexVal?_hexDigitChar _ (Nat.mod_lt _ (by omega))
  have hA : 16 * (n / 4096) + n / 256 % 16 = n / 256 := by
    have hdd : n / 256 / 16 = n / 4096 := by rw [Nat.div_div_eq_div_mul]
    have := Nat.div_add_mod (n / 256) 16
    omega
  have hB : 16 * (n / 16 % 16) + n % 16 = n % 256 := by
    have hdd : n % 256 / 16 = n / 16 % 16 := by
      have := Nat.mod_mul_right_div_self n 16 16
      norm_num at this
      exact this
    have h2 := Nat.div_add_mod (n % 256) 16
    have h3 : n % 256 % 16 = n % 16 := Nat.mod_mod_of_dvd n (by norm_num)
    omega
  rw [pyFormatHex4_eq n h]
  simp [hexPairsToBytes, e1, e2, e3, e4, hA, hB]

theorem hexPairsToBytes_append : ∀ (a b : List Char) (x : List Nat),
    hexPairsToBytes a = some x →
    hexPairsToBytes (a ++ b) = (hexPairsToBytes b).map (fun y => x ++ y)
  | [], b, x, hx => by
    simp [hexPairsToBytes] at hx
    subst hx
    cases hb : hexPairsToBytes b <;> simp [hb]
  | [c], b, x, hx => by
    simp [hexPairsToBytes] at hx
  | c1 :: c2 :: rest, b, x, hx => by
    cases hv1 : hexVal? c1 with
    | none => simp [hexPairsToBytes, hv1] at hx
    | some h =>
      cases hv2 : hexVal? c2 with
      | none => simp [hexPairsToBytes, hv1, hv2] at hx
      | some lo =>
        cases hr : hexPairsToBytes rest with
        | none => simp [hexPairsToBytes, hv1, hv2, hr] at hx
        | some bs =>
          have hrec := hexPairsToBytes_append rest b bs hr
          simp [hexPairsToBytes, hv1, hv2, hr] at hx
          subst hx
          simp only [List.cons_append]
          simp [hexPairsToBytes, hv1, hv2, hrec]
          cases hexPairsToBytes b <;> simp

/-! ### CRC-16/MODBUS: bound and single-byte error detection -/

theorem xorCancelRight (a b : Nat) : a ^^^ b ^^^ b = a := by
  rw [Nat.xor_assoc, Nat.xor_self, Nat.xor_zero]

theorem crcBitStep_lt (c : Nat) (h : c < 65536) : crcBitStep c < 65536 := by
  have e16 : (2 : Nat) ^ 16 = 65536 := by norm_num
  unfold crcBitStep
  split
  · have hx := Nat.xor_lt_two_pow (n := 16) (x := c / 2) (y := 0xA001)
      (by rw [e16]; omega) (by rw [e16]; norm_num)
    rw [e16] at hx
    exact hx
  · omega

theorem crcBitN_lt : ∀ k c, c < 65536 → crcBitN k c < 65536
  | 0, _, h => h
  | k + 1, c, h => crcBitN_lt k (crcBitStep c) (crcBitStep_lt c h)

theorem crcByteStep_lt (c b : Nat) (hc : c < 65536) (hb : b < 65536) :
    crcByteStep c b < 65536 := by
  have e16 : (2 : Nat) ^ 16 = 65536 := by norm_num
  have hx := Nat.xor_lt_two_pow (n := 16) (x := c) (y := b)
    (by rw [e16]; omega) (by rw [e16]; omega)
  rw [e16] at hx
  exact crcBitN_lt 8 _ hx

theorem foldl_crcByteStep_lt : ∀ (bs : List Nat) (c : Nat), c < 65536 →
    (∀ b ∈ bs, b < 65536) → List.foldl crcByteStep c bs < 65536
  | [], c, hc, _ => hc
  | b :: rest, c, hc, hb => by
    have h1 : b < 65536 := hb b (by simp)
    exact foldl_crcByteStep_lt rest (crcByteStep c b) (crcByteStep_lt c b hc h1)
      (fun x hx => hb x (by simp [hx]))

theorem crc16_modbus_lt (bs : List Nat) (hb : ∀ b ∈ bs, b < 65536) :
    crc16_modbus bs < 65536 :=
  foldl_crcByteStep_lt bs 0xFFFF (by norm_num) hb

theorem high_xor_const (x : Nat) (hx : x < 32768) : 32768 ≤ x ^^^ 0xA001 := by
  by_contra hlt
  push_neg at hlt
  have e15 : (2 : Nat) ^ 15 = 32768 := by norm_num
  have hxx : x ^^^ 0xA001 ^^^ x < 2 ^ 15 :=
    Nat.xor_lt_two_pow (by rw [e15]; omega) (by rw [e15]; omega)
  rw [Nat.xor_comm x 0xA001, xorCancelRight, e15] at hxx
  norm_num at hxx

theorem crcBitStep_inj (c1 c2 : Nat) (h1 : c1 < 65536) (h2 : c2 < 65536)
    (he : crcBitStep c1 = crcBitStep c2) : c1 = c2 := by
  unfold crcBitStep at he
  by_cases p1 : c1 % 2 = 1 <;> by_cases p2 : c2 % 2 = 1 <;> simp [p1, p2] at he
  · have hq : c1 / 2 = c2 / 2 := by
      have := congrArg (· ^^^ 0xA001) he
      simpa [xorCancelRight] using this
    omega
  · exfalso
    have ha := high_xor_const (c1 / 2) (by omega)
    rw [he] at ha
    omega
  · exfalso
    have ha := high_xor_const (c2 / 2) (by omega)
    rw [← he] at ha
    omega
  · omega

theorem crcBitN_inj : ∀ (k c1 c2 : Nat), c1 < 65536 → c2 < 65536 →
    crcBitN k c1 = crcBitN k c2 → c1 = c2
  | 0, _, _, _, _, he => he
  | k + 1, c1, c2, h1, h2, he =>
    crcBitStep_inj c1 c2 h1 h2
      (crcBitN_inj k _ _ (crcBitStep_lt c1 h1) (crcBitStep_lt c2 h2) he)

theorem crcByteStep_inj_state (c1 c2 b : Nat) (h1 : c1 < 65536) (h2 : c2 < 65536)
    (hb : b < 65536) (hne : c1 ≠ c2) : crcByteStep c1 b ≠ crcByteStep c2 b := by
  intro he
  apply hne
  have e16 : (2 : Nat) ^ 16 = 65536 := by norm_num
  have hx1 : c1 ^^^ b < 65536 := by
    have := Nat.xor_lt_two_pow (n := 16) (x := c1) (y := b)
      (by rw [e16]; omega) (by rw [e16]; omega)
    rw [e16] at this; exact this
  have hx2 : c2 ^^^ b < 65536 := by
    have := Nat.xor_lt_two_pow (n := 16) (x := c2) (y := b)
      (by rw [e16]; omega) (by rw [e16]; omega)
    rw [e16] at this; exact this
  have hq := crcBitN_inj 8 _ _ hx1 hx2 he
  have := congrArg (· ^^^ b) hq
  simpa [xorCancelRight] using this

theorem crcByteStep_inj_byte (c b1 b2 : Nat) (hc : c < 65536) (hb1 : b1 < 65536)
    (hb2 : b2 < 65536) (hne : b1 ≠ b2) : crcByteStep c b1 ≠ crcByteStep c b2 := by
  intro he
  apply hne
  have e16 : (2 : Nat) ^ 16 = 65536 := by norm_num
  have hx1 : c ^^^ b1 < 65536 := by
    have := Nat.xor_lt_two_pow (n := 16) (x := c) (y := b1)
      (by rw [e16]; omega) (by rw [e16]; omega)
    rw [e16] at this; exact this
  have hx2 : c ^^^ b2 < 65536 := by
    have := Nat.xor_lt_two_pow (n := 16) (x := c) (y := b2)
      (by rw [e16]; omega) (by rw [e16]; omega)
    rw [e16] at this; exact this
  have hq := crcBitN_inj 8 _ _ hx1 hx2 he
  have h3 := congrArg (fun z => c ^^^ z) hq
  simpa [← Nat.xor_assoc, Nat.xor_self, Nat.zero_xor] using h3

theorem foldl_crcByteStep_ne : ∀ (bs : List Nat) (c1 c2 : Nat),
    (∀ b ∈ bs, b < 65536) → c1 < 65536 → c2 < 65536 → c1 ≠ c2 →
    List.foldl crcByteStep c1 bs ≠ List.foldl crcByteStep c2 bs
  | [], _, _, _, _, _, hne => hne
  | b :: rest, c1, c2, hb, h1, h2, hne => by
    have hbb : b < 65536 := hb b (by simp)
    exact foldl_crcByteStep_ne rest _ _ (fun x hx => hb x (by simp [hx]))
      (crcByteStep_lt c1 b h1 hbb) (crcByteStep_lt c2 b h2 hbb)
      (crcByteStep_inj_state c1 c2 b h1 h2 hbb hne)

theorem crc16_single_byte_ne (pre suf : List Nat) (b b2 : Nat)
    (hpre : ∀ x ∈ pre, x < 65536) (hsuf : ∀ x ∈ suf, x < 65536)
    (hb : b < 65536) (hb2 : b2 < 65536) (hne : b ≠ b2) :
    crc16_modbus (pre ++ b :: suf) ≠ crc16_modbus (pre ++ b2 :: suf) := by
  unfold crc16_modbus
  rw [List.foldl_append, List.foldl_append, List.foldl_cons, List.foldl_cons]
  have hc : List.foldl crcByteStep 0xFFFF pre < 65536 :=
    foldl_crcByteStep_lt pre 0xFFFF (by norm_num) hpre
  exact foldl_crcByteStep_ne suf _ _ hsuf
    (crcByteStep_lt _ b hc hb) (crcByteStep_lt _ b2 hc hb2)
    (crcByteStep_inj_byte _ b b2 hc hb hb2 hne)

/-! ### Claim C1: the 32-bit register decoder -/

/-- C1.  On a register map holding 2-byte big-endian entries at adjacent
addresses 63 and 64 (`0x0001` and `0x0000`), the source's `read_unit32`
returns the single register at the given address (here `1`), while the
claim's two-register formula yields `65536`: the code never combines two
consecutive registers, so the claim fails on the code.  Given the in-file
field table (UINT32 fields spanning two register addresses) and the dead
`& 0xffffffff` mask, the code, not the claim, is the slip. -/
theorem read_unit32_single_register_eval :
    read_unit32 [(63, [0, 1]), (64, [0, 0])] 63 = some 1
    ∧ claimed_read_unit32 [(63, [0, 1]), (64, [0, 0])] 63 = some 65536
    ∧ read_unit32 [(63, [0, 1]), (64, [0, 0])] 63
        ≠ claimed_read_unit32 [(63, [0, 1]), (64, [0, 0])] 63 := by
  decide

/-! ### Claim C3: the wire request -/

set_option maxRecDepth 40000 in
/-- C3, counterexample.  At `first_reg = 0`, `last_reg = 0` the produced wire
request is `01 03 00 00 00 01 84 0a` — it carries a leading device-address
byte `0x01` that the claim's byte layout omits — and at `first_reg = 0`,
`last_reg = 0xFFFF` the register count `0x10000` formats to five hex digits,
`bytearray.fromhex` raises on the odd-length string, and no wire request is
produced at all. -/
theorem wire_request_counterexample :
    read_holding_registers_wire_request 0 0 ≠ some (claimed_wire_request 0 0)
    ∧ read_holding_registers_wire_request 0 65535 = none := by
  decide

/-- C3, amended.  For `first_reg ≤ last_reg ≤ 0xFFFF` with register count
`last_reg - first_reg + 1 ≤ 0xFFFF`, the wire request is the device address
`0x01`, the function code `0x03`, `first_reg` big-endian 16-bit, the register
count big-endian 16-bit, followed by the CRC-16/MODBUS of those six bytes
appended byte-reversed (little-endian). -/
theorem wire_request_format (first_reg last_reg : Nat) (h1 : first_reg ≤ last_reg)
    (h2 : last_reg ≤ 65535) (h3 : last_reg - first_reg + 1 ≤ 65535) :
    read_holding_registers_wire_request first_reg last_reg =
      some ([1, 3, first_reg / 256, first_reg % 256,
          (last_reg - first_reg + 1) / 256, (last_reg - first_reg + 1) % 256]
        ++ [crc16_modbus [1, 3, first_reg / 256, first_reg % 256,
              (last_reg - first_reg + 1) / 256, (last_reg - first_reg + 1) % 256] % 256,
            crc16_modbus [1, 3, first_reg / 256, first_reg % 256,
              (last_reg - first_reg + 1) / 256, (last_reg - first_reg + 1) % 256] / 256]) := by
  have hf : first_reg < 65536 := by omega
  have hcnt : last_reg - first_reg + 1 < 65536 := by omega
  have hbuild : build_modbus_read_holding_registers_request_frame first_reg last_reg
      = some [1, 3, first_reg / 256, first_reg % 256,
          (last_reg - first_reg + 1) / 256, (last_reg - first_reg + 1) % 256] := by
    unfold build_modbus_read_holding_registers_request_frame
    rw [List.append_assoc,
      hexPairsToBytes_append ['0', '1', '0', '3'] _ [1, 3] (by decide),
      hexPairsToBytes_append _ _ _ (hexPairsToBytes_format4 first_reg hf),
      hexPairsToBytes_format4 _ hcnt]
    simp
  have hcrclt : crc16_modbus [1, 3, first_reg / 256, first_reg % 256,
      (last_reg - first_reg + 1) / 256, (last_reg - first_reg + 1) % 256] < 65536 := by
    apply crc16_modbus_lt
    intro b hb
    have d1 : first_reg / 256 ≤ first_reg := Nat.div_le_self _ _
    have d2 : (last_reg - first_reg + 1) / 256 ≤ last_reg - first_reg + 1 :=
      Nat.div_le_self _ _
    have m1 : first_reg % 256 < 256 := Nat.mod_lt _ (by omega)
    have m2 : (last_reg - first_reg + 1) % 256 < 256 := Nat.mod_lt _ (by omega)
    simp at hb
    rcases hb with h | h | h | h | h | h <;> omega
  simp only [read_holding_registers_wire_request, hbuild]
  rw [hexPairsToBytes_format4 _ hcrclt]
  simp

/-- C3, witness: the amended wire-request layout at the repository's actual
call `read_holding_registers(connector, 60, 112)`. -/
theorem wire_request_format_witness :
    60 ≤ 112 ∧ 112 ≤ 65535 ∧ 112 - 60 + 1 ≤ 65535
    ∧ read_holding_registers_wire_request 60 112 =
      some ([1, 3, 60 / 256, 60 % 256, (112 - 60 + 1) / 256, (112 - 60 + 1) % 256]
        ++ [crc16_modbus [1, 3, 60 / 256, 60 % 256,
              (112 - 60 + 1) / 256, (112 - 60 + 1) % 256] % 256,
            crc16_modbus [1, 3, 60 / 256, 60 % 256,
              (112 - 60 + 1) / 256, (112 - 60 + 1) % 256] / 256]) :=
  ⟨by decide, by decide, by decide,
    wire_request_format 60 112 (by decide) (by decide) (by decide)⟩

/-! ### Response-parser lemmas -/

theorem regLoop_length (frame : List Nat) (f : Nat) :
    ∀ k a, (regLoop frame f a k).length = k
  | 0, _ => rfl
  | k + 1, a => by
    simp [regLoop, regLoop_length frame f k (a + 1)]

theorem regLoop_lookup (frame : List Nat) (f : Nat) :
    ∀ k a j, j < k →
      (regLoop frame f a k).lookup (f + a + j)
        = some ((frame.drop (3 + 2 * (a + j))).take 2)
  | 0, _, j, h => by omega
  | k + 1, a, j, h => by
    cases j with
    | zero =>
      have e : f + a + 0 = f + a := by omega
      simp [regLoop, List.lookup, e]
    | succ j' =>
      have hbeq : (f + a + (j' + 1) == f + a) = false := by
        rw [beq_eq_false_iff_ne]
        omega
      have hidx : f + a + (j' + 1) = f + (a + 1) + j' := by omega
      have harg : a + (j' + 1) = a + 1 + j' := by omega
      rw [harg]
      simp only [regLoop, List.lookup, hbeq]
      rw [hidx]
      exact regLoop_lookup frame f k (a + 1) j' (by omega)

theorem regLoop_lookup_none (frame : List Nat) (f : Nat) :
    ∀ k a x, (x < f + a ∨ f + a + k ≤ x) → (regLoop frame f a k).lookup x = none
  | 0, _, _, _ => rfl
  | k + 1, a, x, h => by
    have hbeq : (x == f + a) = false := by
      rw [beq_eq_false_iff_ne]
      omega
    simp only [regLoop, List.lookup, hbeq]
    exact regLoop_lookup_none frame f k (a + 1) x (by omega)

theorem parse_ok (first_reg last_reg : Nat) (D : List Nat)
    (hD : D.length = 2 + 1 + (last_reg - first_reg + 1) * 2)
    (hbytes : ∀ b ∈ D, b < 65536) :
    parse_modbus_read_holding_registers_response
      (D ++ [crc16_modbus D % 256, crc16_modbus D / 256]) first_reg last_reg
      = .ok (regLoop (D ++ [crc16_modbus D % 256, crc16_modbus D / 256]) first_reg 0
          (last_reg - first_reg + 1)) := by
  have hc : crc16_modbus D < 65536 := crc16_modbus_lt D hbytes
  have hlen : (D ++ [crc16_modbus D % 256, crc16_modbus D / 256]).length
      = D.length + 2 := by simp
  have hdrop : (D ++ [crc16_modbus D % 256, crc16_modbus D / 256]).drop
      (2 + 1 + (last_reg - first_reg + 1) * 2)
      = [crc16_modbus D % 256, crc16_modbus D / 256] := by
    rw [← hD, List.drop_left]
  have htake : (D ++ [crc16_modbus D % 256, crc16_modbus D / 256]).take
      (2 + 1 + (last_reg - first_reg + 1) * 2) = D := by
    rw [← hD, List.take_left]
  have hle : fromBytesLE [crc16_modbus D % 256, crc16_modbus D / 256]
      = crc16_modbus D := by
    simp [fromBytesLE]
    omega
  simp only [parse_modbus_read_holding_registers_response]
  rw [if_neg (by omega : ¬ (D ++ [crc16_modbus D % 256, crc16_modbus D / 256]).length
    < 2 + 1 + (last_reg - first_reg + 1) * 2 + 2)]
  rw [hdrop, htake]
  simp only [List.take, hle]
  rw [if_neg (by simp)]

/-- C4.  A synthetically constructed valid response frame — a data region of
2 header bytes, 1 byte-count byte and `reg_count` 2-byte register values,
followed by its correct little-endian CRC-16/MODBUS — parses to a register
map with exactly `last_reg - first_reg + 1` entries, keyed
`first_reg..last_reg` inclusive, where the entry for address `a` is exactly
the 2 bytes at frame offset `3 + 2*(a - first_reg)`. -/
theorem parse_response_roundtrip (first_reg last_reg : Nat) (D : List Nat)
    (hfl : first_reg ≤ last_reg)
    (hD : D.length = 2 + 1 + (last_reg - first_reg + 1) * 2)
    (hbytes : ∀ b ∈ D, b < 256) :
    ∃ regs,
      parse_modbus_read_holding_registers_response
        (D ++ [crc16_modbus D % 256, crc16_modbus D / 256]) first_reg last_reg
        = .ok regs
      ∧ regs.length = last_reg - first_reg + 1
      ∧ (∀ a, first_reg ≤ a → a ≤ last_reg →
          regs.lookup a = some
            (((D ++ [crc16_modbus D % 256, crc16_modbus D / 256]).drop
              (3 + 2 * (a - first_reg))).take 2)
          ∧ (((D ++ [crc16_modbus D % 256, crc16_modbus D / 256]).drop
              (3 + 2 * (a - first_reg))).take 2).length = 2)
      ∧ (∀ a, (regs.lookup a).isSome = true → first_reg ≤ a ∧ a ≤ last_reg) := by
  have hok := parse_ok first_reg last_reg D hD
    (fun b hb => by have := hbytes b hb; omega)
  refine ⟨_, hok, regLoop_length _ _ _ 0, ?_, ?_⟩
  · intro a ha1 ha2
    have hj : a - first_reg < last_reg - first_reg + 1 := by omega
    have hlook := regLoop_lookup
      (D ++ [crc16_modbus D % 256, crc16_modbus D / 256]) first_reg
      (last_reg - first_reg + 1) 0 (a - first_reg) hj
    rw [show first_reg + 0 + (a - first_reg) = a from by omega,
      show 0 + (a - first_reg) = a - first_reg from by omega] at hlook
    refine ⟨hlook, ?_⟩
    have hlen : (D ++ [crc16_modbus D % 256, crc16_modbus D / 256]).length
        = D.length + 2 := by simp
    simp only [List.length_take, List.length_drop]
    omega
  · intro a ha
    by_contra hcon
    rw [regLoop_lookup_none (D ++ [crc16_modbus D % 256, crc16_modbus D / 256])
      first_reg (last_reg - first_reg + 1) 0 a (by omega)] at ha
    simp at ha

/-- C4, witness: a one-register frame for `first_reg = last_reg = 0` with
data region `01 03 02 00 05`. -/
theorem parse_response_roundtrip_witness :
    (0 : Nat) ≤ 0
    ∧ ([1, 3, 2, 0, 5] : List Nat).length = 2 + 1 + (0 - 0 + 1) * 2
    ∧ (∀ b ∈ ([1, 3, 2, 0, 5] : List Nat), b < 256)
    ∧ ∃ regs,
      parse_modbus_read_holding_registers_response
        ([1, 3, 2, 0, 5] ++ [crc16_modbus [1, 3, 2, 0, 5] % 256,
          crc16_modbus [1, 3, 2, 0, 5] / 256]) 0 0 = .ok regs
      ∧ regs.length = 0 - 0 + 1
      ∧ (∀ a, 0 ≤ a → a ≤ 0 →
          regs.lookup a = some
            ((([1, 3, 2, 0, 5] ++ [crc16_modbus [1, 3, 2, 0, 5] % 256,
              crc16_modbus [1, 3, 2, 0, 5] / 256]).drop (3 + 2 * (a - 0))).take 2)
          ∧ ((([1, 3, 2, 0, 5] ++ [crc16_modbus [1, 3, 2, 0, 5] % 256,
              crc16_modbus [1, 3, 2, 0, 5] / 256]).drop (3 + 2 * (a - 0))).take 2).length = 2)
      ∧ (∀ a, (regs.lookup a).isSome = true → 0 ≤ a ∧ a ≤ 0) :=
  ⟨by decide, by decide, by decide,
    parse_response_roundtrip 0 0 [1, 3, 2, 0, 5] (by decide) (by decide) (by decide)⟩

/-- C5.  For a canonical valid response frame (data region `D` of the
expected length followed by its correct little-endian CRC): truncating the
frame by at least one byte fails with the framing error `tooShort` (never
the checksum error — the length check precedes the CRC check), and
corrupting any single byte of the data region (CRC bytes untouched) fails
with the checksum error `badCrc`. -/
theorem parse_response_error_detection (first_reg last_reg : Nat) (D : List Nat)
    (hfl : first_reg ≤ last_reg)
    (hD : D.length = 2 + 1 + (last_reg - first_reg + 1) * 2)
    (hbytes : ∀ b ∈ D, b < 256) :
    (∀ k, 1 ≤ k →
      parse_modbus_read_holding_registers_response
        ((D ++ [crc16_modbus D % 256, crc16_modbus D / 256]).take
          ((D ++ [crc16_modbus D % 256, crc16_modbus D / 256]).length - k))
        first_reg last_reg = .error .tooShort)
    ∧ (∀ pre b suf b2, D = pre ++ b :: suf → b2 < 256 → b2 ≠ b →
        parse_modbus_read_holding_registers_response
          ((pre ++ b2 :: suf) ++ [crc16_modbus D % 256, crc16_modbus D / 256])
          first_reg last_reg = .error .badCrc) := by
  have hc : crc16_modbus D < 65536 :=
    crc16_modbus_lt D (fun b hb => by have := hbytes b hb; omega)
  have hlen : (D ++ [crc16_modbus D % 256, crc16_modbus D / 256]).length
      = D.length + 2 := by simp
  constructor
  · intro k hk
    simp only [parse_modbus_read_holding_registers_response]
    rw [if_pos]
    simp only [List.length_take]
    omega
  · intro pre b suf b2 hDecomp hb2 hne
    have hlen2 : (pre ++ b2 :: suf).length = D.length := by
      simp [hDecomp]
    have hdrop : ((pre ++ b2 :: suf) ++ [crc16_modbus D % 256, crc16_modbus D / 256]).drop
        (2 + 1 + (last_reg - first_reg + 1) * 2)
        = [crc16_modbus D % 256, crc16_modbus D / 256] := by
      rw [← hD, ← hlen2, List.drop_left]
    have htake : ((pre ++ b2 :: suf) ++ [crc16_modbus D % 256, crc16_modbus D / 256]).take
        (2 + 1 + (last_reg - first_reg + 1) * 2) = pre ++ b2 :: suf := by
      rw [← hD, ← hlen2, List.take_left]
    have hle : fromBytesLE [crc16_modbus D % 256, crc16_modbus D / 256]
        = crc16_modbus D := by
      simp [fromBytesLE]
      omega
    have hcrcne : crc16_modbus D ≠ crc16_modbus (pre ++ b2 :: suf) := by
      rw [hDecomp]
      exact crc16_single_byte_ne pre suf b b2
        (fun x hx => by
          have : x ∈ D := by rw [hDecomp]; simp [hx]
          have := hbytes x this; omega)
        (fun x hx => by
          have : x ∈ D := by rw [hDecomp]; simp [hx]
          have := hbytes x this; omega)
        (by
          have : b ∈ D := by rw [hDecomp]; simp
          have := hbytes b this; omega)
        (by omega)
        (fun he => hne he.symm)
    have hflen : ((pre ++ b2 :: suf) ++ [crc16_modbus D % 256,
        crc16_modbus D / 256]).length = D.length + 2 := by
      simp only [List.length_append, List.length_cons, List.length_nil] at hlen2 ⊢
      omega
    simp only [parse_modbus_read_holding_registers_response]
    rw [if_neg (by omega : ¬ ((pre ++ b2 :: suf) ++ [crc16_modbus D % 256,
      crc16_modbus D / 256]).length < 2 + 1 + (last_reg - first_reg + 1) * 2 + 2)]
    rw [hdrop, htake]
    simp only [List.take, hle]
    rw [if_pos hcrcne]

/-- C5, witness: truncation by one byte and corruption of the byte-count
byte on the one-register frame of the C4 witness. -/
theorem parse_response_error_detection_witness :
    (0 : Nat) ≤ 0
    ∧ ([1, 3, 2, 0, 5] : List Nat).length = 2 + 1 + (0 - 0 + 1) * 2
    ∧ (∀ b ∈ ([1, 3, 2, 0, 5] : List Nat), b < 256)
    ∧ parse_modbus_read_holding_registers_response
        (([1, 3, 2, 0, 5] ++ [crc16_modbus [1, 3, 2, 0, 5] % 256,
          crc16_modbus [1, 3, 2, 0, 5] / 256]).take
          (([1, 3, 2, 0, 5] ++ [crc16_modbus [1, 3, 2, 0, 5] % 256,
            crc16_modbus [1, 3, 2, 0, 5] / 256]).length - 1)) 0 0 = .error .tooShort
    ∧ parse_modbus_read_holding_registers_response
        (([1, 3] ++ 7 :: [0, 5]) ++ [crc16_modbus [1, 3, 2, 0, 5] % 256,
          crc16_modbus [1, 3, 2, 0, 5] / 256]) 0 0 = .error .badCrc :=
  ⟨by decide, by decide, by decide,
    (parse_response_error_detection 0 0 [1, 3, 2, 0, 5]
      (by decide) (by decide) (by decide)).1 1 (by decide),
    (parse_response_error_detection 0 0 [1, 3, 2, 0, 5]
      (by decide) (by decide) (by decide)).2 [1, 3] 2 [0, 5] 7
      (by decide) (by decide) (by decide)⟩

/-! ### Claim C8: signed register decoding -/

/-- C8.  `read_int16` is the two's-complement reading of the `u16` value
(subtract `65536` exactly when the value exceeds `32767`), `read_int32`
likewise relative to the `read_unit32` value (subtract `4294967296` exactly
when it exceeds `2147483647`), and the boundary entries `0xFFFF`, `0x8000`,
`0x7FFF` decode to `-1`, `-32768`, `32767`. -/
theorem signed_register_decoding :
    (∀ response address v, read_unit16 response address = some v →
      read_int16 response address
        = some (if 32767 < v then (v : Int) - 65536 else (v : Int)))
    ∧ (∀ response address v, read_unit32 response address = some v →
      read_int32 response address
        = some (if 2147483647 < v then (v : Int) - 4294967296 else (v : Int)))
    ∧ read_int16 [(0, [255, 255])] 0 = some (-1)
    ∧ read_int16 [(0, [128, 0])] 0 = some (-32768)
    ∧ read_int16 [(0, [127, 255])] 0 = some 32767 := by
  refine ⟨?_, ?_, by decide, by decide, by decide⟩
  · intro response address v h
    cases hl : response.lookup address with
    | none => rw [read_unit16, hl] at h; simp at h
    | some bs =>
      rw [read_unit16, hl] at h
      simp at h
      rw [read_int16, hl]
      simp [← h]
  · intro response address v h
    rw [read_int32, h]
    rfl

/-- C8, witness: the two general conversion laws at a concrete entry
`0xFFFE` stored at address 0. -/
theorem signed_register_decoding_witness :
    read_unit16 [(0, [255, 254])] 0 = some 65534
    ∧ read_int16 [(0, [255, 254])] 0
        = some (if 32767 < 65534 then ((65534 : Nat) : Int) - 65536 else ((65534 : Nat) : Int))
    ∧ read_unit32 [(0, [255, 254])] 0 = some 65534
    ∧ read_int32 [(0, [255, 254])] 0
        = some (if 2147483647 < 65534 then ((65534 : Nat) : Int) - 4294967296
            else ((65534 : Nat) : Int)) :=
  ⟨by decide, signed_register_decoding.1 [(0, [255, 254])] 0 65534 (by decide),
    by decide, signed_register_decoding.2.1 [(0, [255, 254])] 0 65534 (by decide)⟩

/-! ### Claim C6: AT-response extraction -/

theorem reverse_drop_reverse (l : List Char) (n : Nat) :
    (l.reverse.drop n).reverse = l.take (l.length - n) := by
  rw [← List.rdrop_eq_reverse_drop_reverse, List.rdrop]

theorem reverse_drop_reverse_nat (l : List Nat) (n : Nat) :
    (l.reverse.drop n).reverse = l.take (l.length - n) := by
  rw [← List.rdrop_eq_reverse_drop_reverse, List.rdrop]

/-- C6.  On every AT response beginning with `"+ok="`, the source's
extraction agrees with the claim's pipeline: remove every `0x10` byte, drop
the first 4 and the last 4 of the remaining bytes, read the rest as an ASCII
hex string, strip a trailing literal `"0000"` when the string is longer than
4 characters and ends with it, and hex-decode the result. -/
theorem extraction_matches_claim (resp : List Nat)
    (h : beginsWith okMarker resp = true) :
    extract_modbus_respose resp = claimed_extraction resp := by
  clear h
  unfold extract_modbus_respose claimed_extraction
  have hcore : (((resp.filter (fun b => ¬ b = 16)).drop 4).reverse.drop 4).reverse
      = ((resp.filter (fun b => ¬ b = 16)).drop 4).take
          ((resp.filter (fun b => ¬ b = 16)).length - 8) := by
    rw [reverse_drop_reverse_nat, List.length_drop, Nat.sub_sub]
  simp only [ne_eq, hcore]
  cases hdec : decodeAscii ((resp.filter (fun b => ¬ b = 16)).drop 4
      |>.take ((resp.filter (fun b => ¬ b = 16)).length - 8)) with
  | none => rfl
  | some s =>
    have hiff : (4 < s.length ∧ ['0', '0', '0', '0'] <:+ s)
        ↔ (s.length > 4 ∧ s.drop (s.length - 4) = ['0', '0', '0', '0']) := by
      rw [List.suffix_iff_eq_drop]
      simp only [List.length_cons, List.length_nil]
      constructor
      · rintro ⟨h1, h2⟩
        exact ⟨h1, h2.symm⟩
      · rintro ⟨h1, h2⟩
        exact ⟨h1, h2.symm⟩
    dsimp only
    rw [if_congr hiff.symm rfl rfl]

/-- C6, witness: a concrete AT response carrying `0x10` padding, the 4-byte
wrapper, and a trailing `"0000"` artifact. -/
theorem extraction_matches_claim_witness :
    beginsWith okMarker ([43, 111, 107, 61, 48, 49, 16, 48, 51, 48, 50,
      48, 48, 54, 52, 48, 48, 48, 48, 13, 10, 88, 88] : List Nat) = true
    ∧ extract_modbus_respose [43, 111, 107, 61, 48, 49, 16, 48, 51, 48, 50,
        48, 48, 54, 52, 48, 48, 48, 48, 13, 10, 88, 88]
      = claimed_extraction [43, 111, 107, 61, 48, 49, 16, 48, 51, 48, 50,
        48, 48, 54, 52, 48, 48, 48, 48, 13, 10, 88, 88] :=
  ⟨by decide,
    extraction_matches_claim [43, 111, 107, 61, 48, 49, 16, 48, 51, 48, 50,
      48, 48, 54, 52, 48, 48, 48, 48, 13, 10, 88, 88] (by decide)⟩

/-! ### Substring lemmas for the OBIS tag dispatch -/

theorem beginsWith_length [BEq α] : ∀ p l : List α,
    beginsWith p l = true → p.length ≤ l.length
  | [], _, _ => by simp
  | _ :: _, [], h => by simp [beginsWith] at h
  | p :: ps, b :: bs, h => by
    simp only [beginsWith, Bool.and_eq_true] at h
    have := beginsWith_length ps bs h.2
    simp only [List.length_cons]
    omega

theorem beginsWith_eq_of_len [BEq α] [LawfulBEq α] : ∀ p l : List α,
    beginsWith p l = true → p.length = l.length → p = l
  | [], [], _, _ => rfl
  | [], _ :: _, _, hlen => by simp at hlen
  | _ :: _, [], h, _ => by simp [beginsWith] at h
  | p :: ps, b :: bs, h, hlen => by
    simp only [beginsWith, Bool.and_eq_true, beq_iff_eq] at h
    have htl := beginsWith_eq_of_len ps bs h.2 (by simpa using hlen)
    simp [h.1, htl]

theorem hasSubstr_length [BEq α] : ∀ n l : List α,
    hasSubstr n l = true → n.length ≤ l.length
  | n, [], h => by
    simp only [hasSubstr, List.isEmpty_iff] at h
    simp [h]
  | n, c :: rest, h => by
    simp only [hasSubstr, Bool.or_eq_true] at h
    rcases h with h | h
    · exact beginsWith_length n (c :: rest) h
    · have := hasSubstr_length n rest h
      simp only [List.length_cons]
      omega

theorem hasSubstr_eq_of_len [BEq α] [LawfulBEq α] : ∀ n l : List α,
    hasSubstr n l = true → n.length = l.length → n = l
  | n, [], h, _ => by
    simp only [hasSubstr, List.isEmpty_iff] at h
    exact h
  | n, c :: rest, h, hlen => by
    simp only [hasSubstr, Bool.or_eq_true] at h
    rcases h with h | h
    · exact beginsWith_eq_of_len n (c :: rest) h hlen
    · exfalso
      have := hasSubstr_length n rest h
      simp only [List.length_cons] at hlen
      omega

/-! ### Claim C2: per-record OBIS dispatch -/

/-- C2.  For a decoded OBIS record (its tag is a 6-byte OBIS identifier,
i.e. 12 hex characters): the meter-identity parse runs exactly when the tag
equals `"0100600100ff"` (for 12-character tags the source's Python substring
test `tag in "0100600100ff"` coincides with equality); otherwise a tag that
is a key of the static mapping stores `round(value * scale, 3)` under the
mapped name, and any other tag leaves the measurement set and the meter
identity unchanged. -/
theorem obis_record_dispatch (st : SmlState) (tag : List Char) (v : ObisVal)
    (ht : tag.length = 12) :
    (tag = idTagChars →
      processObisRecord st tag v = match v with
        | .str s => (parse_meter_identity s).map (fun m => ⟨st.values, m⟩)
        | .num _ => none)
    ∧ (∀ name scale, obis_mapping.lookup tag = some (name, scale) →
      processObisRecord st tag v = match v with
        | .num q => some ⟨(name, round3 (q * scale)) :: st.values, st.meter⟩
        | .str _ => none)
    ∧ (tag ≠ idTagChars → obis_mapping.lookup tag = none →
      processObisRecord st tag v = some st) := by
  have hsub_iff : hasSubstr tag idTagChars = true ↔ tag = idTagChars := by
    constructor
    · intro h
      exact hasSubstr_eq_of_len tag idTagChars h (by rw [ht]; decide)
    · intro h
      subst h
      decide
  refine ⟨?_, ?_, ?_⟩
  · intro he
    unfold processObisRecord
    rw [if_pos (hsub_iff.2 he)]
  · intro name scale hlk
    have hkey_ne : tag ≠ idTagChars := by
      intro he
      subst he
      have hnone : obis_mapping.lookup idTagChars = none := by decide
      rw [hnone] at hlk
      cases hlk
    unfold processObisRecord
    rw [if_neg (fun hcon => hkey_ne (hsub_iff.1 hcon)), hlk]
  · intro hne hnone
    unfold processObisRecord
    rw [if_neg (fun hcon => hne (hsub_iff.1 hcon)), hnone]

/-- C2, witness: the mapped tag `"0100100700ff"` (power_total, scale 1) with
a numeric value 5 on the empty state. -/
theorem obis_record_dispatch_witness :
    ("0100100700ff".data.length = 12)
    ∧ obis_mapping.lookup "0100100700ff".data = some ("power_total".data, 1)
    ∧ processObisRecord ⟨[], []⟩ "0100100700ff".data (.num 5)
        = some ⟨[("power_total".data, round3 (5 * 1))], []⟩ :=
  ⟨by decide, by decide,
    (obis_record_dispatch ⟨[], []⟩ "0100100700ff".data (.num 5) (by decide)).2.1
      "power_total".data 1 (by decide)⟩

/-! ### Claim C9: meter-identity round-trip -/

/-- C9.  An identity-tagged OBIS string value whose text, after dropping the
two leading characters, is `"01" ++ "414243" ++ "123" ++ "01"` (counter 01,
manufacturer hex for `"ABC"`, unknown segment `"123"`, hex serial 01) yields
the meter identity `"1ABC1231"`, whatever the current state holds. -/
theorem meter_identity_example (values : List (List Char × ℚ)) (meter0 : List Char) :
    processObisRecord ⟨values, meter0⟩ idTagChars (.str "0f0141424312301".data)
      = some ⟨values, "1ABC1231".data⟩ := by
  unfold processObisRecord
  rw [if_pos (by decide : hasSubstr idTagChars idTagChars = true)]
  dsimp only
  rw [show parse_meter_identity "0f0141424312301".data = some "1ABC1231".data from by decide]
  rfl

/-! ### Claim C7: transport failure paths return "no response" -/

/-- C7.  Every failure path of `send_request` — socket-open failure, an
exception from authentication or from sending, a missing/empty receive, a
`"+ok=no data"` or `"+ERR="` response, or an exception inside the response
extraction — ends in the `none` ("no response") result; in this embedding
the catch-all `except` of the source is the reason `send_request` is a total
function into `Option` rather than one that can propagate an error. -/
theorem send_request_failure_paths (env : AtEnv) :
    (env.socketOk = false → send_request env = none)
    ∧ (env.authRaises = true → send_request env = none)
    ∧ (env.sendRaises = true → send_request env = none)
    ∧ (env.recvData = none → send_request env = none)
    ∧ (∀ r, env.recvData = some r → r.isEmpty = true → send_request env = none)
    ∧ (∀ r, env.recvData = some r → beginsWith noDataMarker r = true →
        send_request env = none)
    ∧ (∀ r, env.recvData = some r → beginsWith errMarker r = true →
        send_request env = none)
    ∧ (∀ r, env.recvData = some r → beginsWith okMarker r = true →
        extract_modbus_respose r = none → send_request env = none) := by
  refine ⟨?_, ?_, ?_, ?_, ?_, ?_, ?_, ?_⟩
  · intro h
    simp [send_request, send_request_full, h]
  · intro h
    cases hso : env.socketOk <;>
      simp [send_request, send_request_full, sendRequestBody, h, hso]
  · intro h
    cases hso : env.socketOk <;> cases har : env.authRaises <;>
      simp [send_request, send_request_full, sendRequestBody, h, hso, har]
  · intro h
    cases hso : env.socketOk <;> cases har : env.authRaises <;>
      cases hsr : env.sendRaises <;>
      simp [send_request, send_request_full, sendRequestBody, h, hso, har, hsr]
  · intro r hr h
    cases hso : env.socketOk <;> cases har : env.authRaises <;>
      cases hsr : env.sendRaises <;>
      simp [send_request, send_request_full, sendRequestBody, hr, h, hso, har, hsr]
  · intro r hr h
    cases hso : env.socketOk <;> cases har : env.authRaises <;>
      cases hsr : env.sendRaises <;> cases hie : r.isEmpty <;>
      simp [send_request, send_request_full, sendRequestBody, hr, h, hso, har, hsr, hie]
  · intro r hr h
    cases hso : env.socketOk <;> cases har : env.authRaises <;>
      cases hsr : env.sendRaises <;> cases hie : r.isEmpty <;>
      cases hnd : beginsWith noDataMarker r <;>
      simp [send_request, send_request_full, sendRequestBody, hr, h, hso, har, hsr,
        hie, hnd]
  · intro r hr hok hex
    cases hso : env.socketOk <;> cases har : env.authRaises <;>
      cases hsr : env.sendRaises <;> cases hie : r.isEmpty <;>
      cases hnd : beginsWith noDataMarker r <;>
      cases her : beginsWith errMarker r <;>
      simp [send_request, send_request_full, sendRequestBody, hr, hok, hex, hso,
        har, hsr, hie, hnd, her]

/-- C7, witness: a session that receives `"+ok=no data"` returns `none`. -/
theorem send_request_failure_paths_witness :
    (AtEnv.mk true false false (some noDataMarker) false).recvData = some noDataMarker
    ∧ beginsWith noDataMarker noDataMarker = true
    ∧ send_request (AtEnv.mk true false false (some noDataMarker) false) = none :=
  ⟨rfl, by decide,
    (send_request_failure_paths (AtEnv.mk true false false (some noDataMarker) false)).2.2.2.2.2.1
      noDataMarker rfl (by decide)⟩

/-! ### Claim C10: unrecognized AT responses -/

/-- C10.  A non-empty received AT response that begins with none of
`"+ok=no data"`, `"+ERR="`, `"+ok="` makes `send_request` return `none`
exactly like "no response", with no exception; the deauthenticate command is
still sent on that path (the socket close is unconditional in the source's
`finally`). -/
theorem send_request_unrecognized (env : AtEnv) (r : List Nat)
    (h1 : env.socketOk = true) (h2 : env.authRaises = false)
    (h3 : env.sendRaises = false) (h4 : env.recvData = some r)
    (h5 : r.isEmpty = false) (h6 : beginsWith noDataMarker r = false)
    (h7 : beginsWith errMarker r = false) (h8 : beginsWith okMarker r = false) :
    send_request env = none
    ∧ (env.deauthRaises = false → send_request_full env = (none, true)) := by
  constructor
  · cases hdr : env.deauthRaises <;>
      simp [send_request, send_request_full, sendRequestBody,
        h1, h2, h3, h4, h5, h6, h7, h8, hdr]
  · intro hdr
    simp [send_request_full, sendRequestBody, h1, h2, h3, h4, h5, h6, h7, h8, hdr]

/-- C10, witness: the single unrecognized byte `0x78` (`"x"`). -/
theorem send_request_unrecognized_witness :
    (AtEnv.mk true false false (some [120]) false).socketOk = true
    ∧ (AtEnv.mk true false false (some [120]) false).authRaises = false
    ∧ (AtEnv.mk true false false (some [120]) false).sendRaises = false
    ∧ (AtEnv.mk true false false (some [120]) false).recvData = some [120]
    ∧ ([120] : List Nat).isEmpty = false
    ∧ beginsWith noDataMarker [120] = false
    ∧ beginsWith errMarker [120] = false
    ∧ beginsWith okMarker [120] = false
    ∧ send_request (AtEnv.mk true false false (some [120]) false) = none
    ∧ ((AtEnv.mk true false false (some [120]) false).deauthRaises = false →
        send_request_full (AtEnv.mk true false false (some [120]) false) = (none, true)) :=
  ⟨rfl, rfl, rfl, rfl, by decide, by decide, by decide, by decide,
    (send_request_unrecognized (AtEnv.mk true false false (some [120]) false) [120]
      rfl rfl rfl rfl (by decide) (by decide) (by decide) (by decide)).1,
    (send_request_unrecognized (AtEnv.mk true false false (some [120]) false) [120]
      rfl rfl rfl rfl (by decide) (by decide) (by decide) (by decide)).2⟩

end HomeEnergy
